import Mathlib

/-!
Verification development for the dagster-xml-json-ex pipeline
(`pipeline_xml.py` / `pipeline_json.py`).

The embedding models the Polars dataframes as Lean lists of typed rows.
Nullable scalar columns are `Option` values; `List(Struct(...))` columns are
lists of structures.  Floating-point dimension values are modelled as `Rat`
(the pipeline only constructs decimal literals and compares them, which is
exact).  Polars join/explode/group semantics are embedded deterministically:
a left join keeps every left row, fanning out once per matching right row and
yielding a single null-filled row when there is no match; equality joins do
not match null keys (Polars default `join_nulls=False`); `group_by ... agg`
collects values in row order within each group.
-/

namespace Pipeline

/-- A row of the terminology lookup table produced by `harvest_terminology`:
columns `term_id`, `term_type`, `label`, each a nullable string. -/
structure TermRow where
  term_id : Option String
  term_type : Option String
  label : Option String
deriving DecidableEq, Repr

/-- One element of the `constituents` list column of the harvest objects
table (struct fields `name`, `role`, `birth_year`, `nationality_id`). -/
structure ConstituentIn where
  name : Option String
  role : Option String
  birth_year : Option Int
  nationality_id : Option String
deriving DecidableEq, Repr

/-- One element of the `classification_ids` list column
(struct fields `type_id`, `term_id`). -/
structure ClassRef where
  type_id : Option String
  term_id : Option String
deriving DecidableEq, Repr

/-- One element of the `dimensions` list column
(struct fields `type`, `value`, `unit`); `value` is a non-null float,
modelled as `Rat`. -/
structure Dim where
  type : Option String
  value : Rat
  unit : Option String
deriving DecidableEq, Repr

/-- One element of the `media` list column
(struct fields `type`, `url`, `caption`). -/
structure MediaItem where
  type : Option String
  url : Option String
  caption : Option String
deriving DecidableEq, Repr

/-- A row of the harvest objects table consumed by `objects_transform`. -/
structure ObjRow where
  object_id : Option String
  title : Option String
  date_made : Option Int
  credit_line : Option String
  department : Option String
  constituents : List ConstituentIn
  classification_ids : List ClassRef
  dimensions : List Dim
  media : List MediaItem
deriving DecidableEq, Repr

/-- One element of the enriched `classifications` column
(struct fields `type_label`, `term_label`). -/
structure ClassOut where
  type_label : Option String
  term_label : Option String
deriving DecidableEq, Repr

/-- One element of the enriched `constituents` column
(struct fields `name`, `role`, `birth_year`, `nationality`). -/
structure ConsOut where
  name : Option String
  role : Option String
  birth_year : Option Int
  nationality : Option String
deriving DecidableEq, Repr

/-- A row of the transform output table (`objects_transform` result). -/
structure OutRow where
  object_id : Option String
  title : Option String
  date_made : Option Int
  credit_line : Option String
  department : Option String
  dimensions : List Dim
  media : List MediaItem
  classifications : List ClassOut
  constituents : List ConsOut
deriving DecidableEq, Repr

/-- Polars equality-join key matching (default `join_nulls=False`):
a null key never matches anything, including another null. -/
def keyMatch : Option String → Option String → Bool
  | some a, some b => a == b
  | _, _ => false

/-- The right-hand values of `lookup` whose key matches `k`. -/
def lookupMatches (lookup : List (Option String × Option String))
    (k : Option String) : List (Option String) :=
  (lookup.filter (fun p => keyMatch k p.1)).map (fun p => p.2)

/-- Left join of one exploded row against a `(key, label)` lookup:
no match yields a single null label, otherwise one output per match. -/
def joinFan (lookup : List (Option String × Option String))
    (k : Option String) : List (Option String) :=
  match lookupMatches lookup k with
  | [] => [none]
  | ms => ms

/-- The `type_labels` projection of the terminology table
(`term_id` renamed `type_id`, `label` renamed `type_label`). -/
def typeLabels (terminology : List TermRow) :
    List (Option String × Option String) :=
  terminology.map (fun t => (t.term_id, t.label))

/-- The `term_labels` projection of the terminology table
(`label` renamed `term_label`). -/
def termLabels (terminology : List TermRow) :
    List (Option String × Option String) :=
  terminology.map (fun t => (t.term_id, t.label))

/-- The `nationality_lookup` projection: terminology filtered to `term_type == "nationality"`,
projected to (`nationality_id`, `nationality`). -/
def nationalityLookup (terminology : List TermRow) :
    List (Option String × Option String) :=
  (terminology.filter (fun t => t.term_type == some "nationality")).map
    (fun t => (t.term_id, t.label))

/-- The exploded `classifications_flat` frame joined against both lookups:
filter rows with a non-empty `classification_ids`, explode, unnest,
left-join `type_labels` on `type_id`, left-join `term_labels` on `term_id`,
keyed by the owning `object_id`. -/
def classificationsJoined (terminology : List TermRow)
    (objects : List ObjRow) : List (Option String × ClassOut) :=
  (objects.filter (fun r => !r.classification_ids.isEmpty)).flatMap (fun r =>
    r.classification_ids.flatMap (fun c =>
      (joinFan (typeLabels terminology) c.type_id).flatMap (fun tl =>
        (joinFan (termLabels terminology) c.term_id).map (fun ml =>
          (r.object_id, ClassOut.mk tl ml)))))

/-- The exploded `constituents_flat` frame joined against
`nationality_lookup`, keyed by the
owning `object_id`. -/
def constituentsJoined (terminology : List TermRow)
    (objects : List ObjRow) : List (Option String × ConsOut) :=
  (objects.filter (fun r => !r.constituents.isEmpty)).flatMap (fun r =>
    r.constituents.flatMap (fun c =>
      (joinFan (nationalityLookup terminology) c.nationality_id).map (fun nat =>
        (r.object_id, ConsOut.mk c.name c.role c.birth_year nat))))

/-- The values of `xs` grouped under key `k` (polars `group_by` groups null
keys together, so grouping uses plain `Option` equality, unlike `keyMatch`). -/
def groupVals (xs : List (Option String × β)) (k : Option String) : List β :=
  (xs.filter (fun p => p.1 == k)).map (fun p => p.2)

/-- Re-nest: `group_by(object_id).agg(struct(...))`.  One output row per
distinct key; within a group, values keep row order.  (Group order in the
embedding is key-deduplication order; it is irrelevant downstream because
the result is only consumed through a keyed join.) -/
def renest (xs : List (Option String × β)) : List (Option String × List β) :=
  ((xs.map (fun p => p.1)).dedup).map (fun k => (k, groupVals xs k))

/-- Left join of an arbitrary left table against a re-nested
`(key, list)` table on `object_id`. -/
def joinNested (left : List α) (key : α → Option String)
    (right : List (Option String × List β)) : List (α × Option (List β)) :=
  left.flatMap (fun l =>
    match right.filter (fun p => keyMatch (key l) p.1) with
    | [] => [(l, none)]
    | ms => ms.map (fun m => (l, some m.2)))

/-- Embedding of `objects_transform` of `pipeline_xml.py` (also reused by
`pipeline_json.py`): enrich classifications and constituents via lookup
joins, re-nest, join back onto the base rows, and fill null nested results
with empty lists. -/
def objects_transform (terminology : List TermRow)
    (objects : List ObjRow) : List OutRow :=
  let classifications_nested := renest (classificationsJoined terminology objects)
  let constituents_nested := renest (constituentsJoined terminology objects)
  let step1 := joinNested objects (fun r => r.object_id) classifications_nested
  let step2 := joinNested step1 (fun p => p.1.object_id) constituents_nested
  step2.map (fun p =>
    { object_id := p.1.1.object_id
      title := p.1.1.title
      date_made := p.1.1.date_made
      credit_line := p.1.1.credit_line
      department := p.1.1.department
      dimensions := p.1.1.dimensions
      media := p.1.1.media
      classifications := p.1.2.getD []
      constituents := p.2.getD [] })

/-- The non-null values of a nullable column, in row order. -/
def someVals (l : List (Option String)) : List String := l.filterMap id

/-- The enriched classifications contributed by one source row: its
`classification_ids` fanned out by the two left joins (one output element
per combination of matches, a null label standing in for a missing match). -/
def clsFan (terminology : List TermRow) (r : ObjRow) : List ClassOut :=
  r.classification_ids.flatMap (fun c =>
    (joinFan (typeLabels terminology) c.type_id).flatMap (fun tl =>
      (joinFan (termLabels terminology) c.term_id).map (fun ml =>
        ClassOut.mk tl ml)))

/-- The enriched constituents contributed by one source row: its
`constituents` fanned out by the nationality left join. -/
def consFan (terminology : List TermRow) (r : ObjRow) : List ConsOut :=
  r.constituents.flatMap (fun c =>
    (joinFan (nationalityLookup terminology) c.nationality_id).map (fun nat =>
      ConsOut.mk c.name c.role c.birth_year nat))

/-- Looking one key up in a re-nested table through the final left join,
followed by the `fill_null([])` step. -/
def nestedLookup (ys : List (Option String × List β)) (k : Option String) :
    List β :=
  ((ys.find? (fun p => keyMatch k p.1)).map (fun p => p.2)).getD []

/-- The label that enrichment attaches to a constituent's `nationality_id`:
the label of the first terminology row whose `term_type` is `"nationality"`
and whose `term_id` matches the (non-null) key; null when there is none. -/
def natResolve (terminology : List TermRow) (nid : Option String) :
    Option String :=
  (terminology.find? (fun t =>
    (t.term_type == some "nationality") && keyMatch nid t.term_id)).bind
    (fun t => t.label)

/-- The per-source-row builder that `objects_transform` is extensionally
equal to (`objects_transform_eq_map`). -/
def transformRow (terminology : List TermRow) (objects : List ObjRow)
    (r : ObjRow) : OutRow :=
  { object_id := r.object_id, title := r.title, date_made := r.date_made,
    credit_line := r.credit_line, department := r.department,
    dimensions := r.dimensions, media := r.media,
    classifications :=
      nestedLookup (renest (classificationsJoined terminology objects))
        r.object_id,
    constituents :=
      nestedLookup (renest (constituentsJoined terminology objects))
        r.object_id }

/-! ## Validation (`ObjectTransformSchema` / `check_objects_transform`)

Per-row check expressions are embedded with Polars' null semantics:
an expression result is `Option Bool` (`none` = null); `list.all` / `list.any`
ignore null elements (`all` of an empty or all-null list is true, `any` is
false); `list.min` / `list.max` ignore nulls and are null on an empty list;
boolean `~`/`|` on nullable expressions use Kleene logic. -/

/-- Kleene negation on a nullable boolean. -/
def kNot : Option Bool → Option Bool
  | some b => some (!b)
  | none => none

/-- Kleene disjunction on nullable booleans. -/
def kOr : Option Bool → Option Bool → Option Bool
  | some true, _ => some true
  | _, some true => some true
  | some false, some false => some false
  | _, _ => none

/-- Polars `list.all()` over per-element nullable results:
nulls ignored, empty list gives `true`. -/
def listAllO (p : α → Option Bool) (xs : List α) : Bool :=
  xs.all (fun x => p x != some false)

/-- Polars `list.any()` over per-element nullable results:
nulls ignored, empty list gives `false`. -/
def listAnyO (p : α → Option Bool) (xs : List α) : Bool :=
  xs.any (fun x => p x == some true)

/-- Polars `list.min()` over non-null rationals; null on the empty list. -/
def listMinQ : List Rat → Option Rat
  | [] => none
  | x :: xs => some (xs.foldl min x)

/-- Polars `list.max()` over non-null integers; null on the empty list. -/
def listMaxI : List Int → Option Int
  | [] => none
  | x :: xs => some (xs.foldl max x)

/-- Check `has_at_least_one_constituent`. -/
def has_constituents (r : OutRow) : Option Bool :=
  some (decide (0 < r.constituents.length))

/-- Check `has_at_least_one_image`. -/
def has_media (r : OutRow) : Option Bool :=
  some (decide (0 < r.media.length))

/-- Check `all_dimension_values_gt_1`: minimum of the `value` fields
compared with 1; null (hence neither pass nor failure) on an empty list. -/
def dimension_values_positive (r : OutRow) : Option Bool :=
  (listMinQ (r.dimensions.map (fun d => d.value))).map (fun m => decide (1 < m))

/-- Check `has_height_dimension`. -/
def has_height (r : OutRow) : Option Bool :=
  some (listAnyO (fun d => d.type.map (fun t => t == "height")) r.dimensions)

/-- Check `all_units_are_cm`. -/
def units_consistent (r : OutRow) : Option Bool :=
  some (listAllO (fun d => d.unit.map (fun u => u == "cm")) r.dimensions)

/-- Polars `str.starts_with`, evaluated over the character list
(equivalent to `String.startsWith`, but kernel-reducible). -/
def strStartsWith (s pre : String) : Bool := pre.data.isPrefixOf s.data

/-- Check `all_urls_are_https`. -/
def urls_are_https (r : OutRow) : Option Bool :=
  some (listAllO (fun m => m.url.map (fun u => strStartsWith u "https://")) r.media)

/-- Check `has_primary_image`: `list.sum` of the per-element comparison
(nulls contribute nothing) must equal 1. -/
def has_primary_image (r : OutRow) : Option Bool :=
  some (decide ((r.media.countP (fun m => m.type == some "primary")) = 1))

/-- Check `no_empty_constituent_names`: `~has_items | names_ok`. -/
def constituent_names_not_empty (r : OutRow) : Option Bool :=
  some (!(decide (0 < r.constituents.length))
    || listAllO (fun c => c.name.map (fun s => decide (0 < s.length))) r.constituents)

/-- Check `has_at_least_one_artist`: `~has_items | has_artist_role`. -/
def has_artist (r : OutRow) : Option Bool :=
  some (!(decide (0 < r.constituents.length))
    || listAnyO (fun c => c.role.map (fun ro => ro == "artist")) r.constituents)

/-- Check `no_null_labels_in_classifications`: `~has_items | no_nulls`. -/
def classification_labels_resolved (r : OutRow) : Option Bool :=
  some (!(decide (0 < r.classifications.length))
    || r.classifications.all (fun c => c.term_label.isSome))

/-- Check `sculpture_must_have_depth`: `~is_sculpture | has_depth`;
a null `department` makes the guard null (Kleene). -/
def sculpture_has_depth (r : OutRow) : Option Bool :=
  kOr (kNot (r.department.map (fun d => d == "Sculpture")))
    (some (listAnyO (fun d => d.type.map (fun t => t == "depth")) r.dimensions))

/-- Check `constituent_born_before_artwork`: `~both_known | valid_where_known`. -/
def birth_before_creation (r : OutRow) : Option Bool :=
  let maxBirth := listMaxI (r.constituents.filterMap (fun c => c.birth_year))
  let both_known := r.date_made.isSome && maxBirth.isSome
  let valid_where_known : Option Bool :=
    match maxBirth, r.date_made with
    | some m, some d => some (decide (m < d))
    | _, _ => none
  kOr (some (!both_known)) valid_where_known

/-- A declared dataframe check: target column, declared name, per-row
evaluation, and a best-effort serialization of the aggregated value for the
failure report (the serialization is modelled from the spec, since Pandera's
`failure_cases` internals are outside this repository). -/
structure CheckDef where
  column : String
  cname : String
  run : OutRow → Option Bool
  aggText : OutRow → String

/-- The twelve `@pa.dataframe_check` declarations of `ObjectTransformSchema`,
in declaration order. -/
def dataframeChecks : List CheckDef := [
  ⟨"constituents", "has_at_least_one_constituent", has_constituents,
    fun r => toString r.constituents.length⟩,
  ⟨"media", "has_at_least_one_image", has_media,
    fun r => toString r.media.length⟩,
  ⟨"dimensions", "all_dimension_values_gt_1", dimension_values_positive,
    fun r =>
      match listMinQ (r.dimensions.map (fun d => d.value)) with
      | some q => toString q
      | none => ""⟩,
  ⟨"dimensions", "has_height_dimension", has_height, fun _ => "false"⟩,
  ⟨"dimensions", "all_units_are_cm", units_consistent, fun _ => "false"⟩,
  ⟨"media", "all_urls_are_https", urls_are_https, fun _ => "false"⟩,
  ⟨"media", "has_primary_image", has_primary_image,
    fun r => toString (r.media.countP (fun m => m.type == some "primary"))⟩,
  ⟨"constituents", "no_empty_constituent_names", constituent_names_not_empty,
    fun _ => "false"⟩,
  ⟨"constituents", "has_at_least_one_artist", has_artist, fun _ => "false"⟩,
  ⟨"classifications", "no_null_labels_in_classifications",
    classification_labels_resolved, fun _ => "false"⟩,
  ⟨"dimensions", "sculpture_must_have_depth", sculpture_has_depth,
    fun _ => "false"⟩,
  ⟨"constituents", "constituent_born_before_artwork", birth_before_creation,
    fun _ => "false"⟩]

/-- The `pa.Field` scalar constraints of `ObjectTransformSchema` for one
row: `object_id` non-null (table-wide uniqueness is separate), `title`
non-null with length ≥ 1, `date_made` nullable within [0, 2100],
`credit_line` and `department` non-null. -/
def scalarFieldOk (r : OutRow) : Bool :=
  r.object_id.isSome
    && (match r.title with | some s => decide (1 ≤ s.length) | none => false)
    && (match r.date_made with
        | some v => decide (0 ≤ v) && decide (v ≤ 2100)
        | none => true)
    && r.credit_line.isSome
    && r.department.isSome

/-- Table-wide `pa.Field(unique=True)` on `object_id`. -/
def objectIdsUnique (t : List OutRow) : Bool :=
  ((t.map (fun r => r.object_id)).dedup).length == t.length

/-- Python `str(...)[:80]` applied by `check_objects_transform` to each
failure-case value. -/
def strTrunc (s : String) : String := String.mk (s.data.take 80)

/-- One entry of the error list built by `check_objects_transform`:
`{"column": ..., "check": ..., "failure_case": str(...)[:80]}`. -/
structure FailureRec where
  column : String
  check : String
  failure_case : String
deriving DecidableEq, Repr

/-- Failure records of the declared dataframe checks: one record per
(check, failing row) pair, in check declaration order.  A row fails a check
when the check expression evaluates to `false` there (a null result is
neither a pass nor a failure, matching Polars filtering). -/
def dfCheckFailures (t : List OutRow) : List FailureRec :=
  dataframeChecks.flatMap (fun c =>
    (t.filter (fun r => c.run r == some false)).map (fun r =>
      ⟨c.column, c.cname, strTrunc (c.aggText r)⟩))

/-- Modelled from the spec: failure records for the scalar `pa.Field`
constraints (their serialization by Pandera is outside this repository). -/
def fieldFailures (t : List OutRow) : List FailureRec :=
  (if objectIdsUnique t then [] else
    [⟨"object_id", "field_unique", strTrunc "duplicate object_id"⟩])
    ++ (t.filter (fun r => !scalarFieldOk r)).map (fun r =>
      ⟨"object_id", "field_constraints", strTrunc (toString r.object_id)⟩)

/-- All failure cases of one validation run. -/
def allFailures (t : List OutRow) : List FailureRec :=
  fieldFailures t ++ dfCheckFailures t

/-- Embedding of `check_objects_transform`: validate the transform output; `(True, [])`
when every check passes, otherwise `(False, errors)` with one
bounded-length record per failure case. -/
def check_objects_transform (t : List OutRow) : Bool × List FailureRec :=
  match allFailures t with
  | [] => (true, [])
  | fs => (false, fs)

/-- The `object_id`s of the rows on which the named declared check fails. -/
def rowsFailing (t : List OutRow) (n : String) : List (Option String) :=
  match dataframeChecks.find? (fun c => c.cname == n) with
  | none => []
  | some c =>
      (t.filter (fun r => c.run r == some false)).map (fun r => r.object_id)

/-- Observable outcome of one `main()` run. -/
structure RunTrace where
  passed : Bool
  failures : List FailureRec
  outputExecuted : Bool
  outputDoc : Option (List OutRow)
deriving Repr

/-- Embedding of `main()` of `pipeline_xml.py` (and, identically, of
`pipeline_json.py`): harvest → transform → validate → output, straight-line.
The source calls `objects_output(transform_df)` unconditionally after the
validation block, whether or not the check passed, so the trace always
records an executed output stage and a produced document. -/
def mainRun (terminology : List TermRow) (objects : List ObjRow) : RunTrace :=
  let t := objects_transform terminology objects
  let pe := check_objects_transform t
  { passed := pe.1, failures := pe.2, outputExecuted := true,
    outputDoc := some t }

/-! ## Concrete scenario inputs

Small harvest inputs realizing the planted data-quality scenarios of the
source data (`OBJ-003`: null `date_made`, empty `constituents`;
`OBJ-005`: a 0.5 dimension value), plus a duplicate-key lookup table. -/

/-- A well-formed terminology table: one nationality term and one
classification type / term pair. -/
def termA : List TermRow :=
  [⟨some "T-NAT-1", some "nationality", some "British"⟩,
   ⟨some "T-TYPE-1", some "object_type", some "Category"⟩,
   ⟨some "T-TERM-1", some "object_term", some "Painting"⟩]

/-- A fully healthy object: passes every declared check. -/
def obj001 : ObjRow :=
  ⟨some "OBJ-001", some "First", some 1900, some "Gift", some "Paintings",
   [⟨some "Alice", some "artist", some 1850, some "T-NAT-1"⟩],
   [⟨some "T-TYPE-1", some "T-TERM-1"⟩],
   [⟨some "height", 10, some "cm"⟩],
   [⟨some "primary", some "https://example.org/1.jpg", some "img"⟩]⟩

/-- Scenario A object: `date_made` null and `constituents` empty,
everything else healthy. -/
def obj003 : ObjRow :=
  ⟨some "OBJ-003", some "Third", none, some "Gift", some "Paintings",
   [],
   [⟨some "T-TYPE-1", some "T-TERM-1"⟩],
   [⟨some "height", 5, some "cm"⟩],
   [⟨some "primary", some "https://example.org/3.jpg", none⟩]⟩

/-- Scenario A harvest objects table. -/
def objsA : List ObjRow := [obj001, obj003]

/-- The exact rational value of the float literal `0.5`, built from the raw
constructor so that it evaluates by kernel reduction. -/
def half : Rat := Rat.mk' 1 2 (by decide) (Nat.coprime_one_left 2)

/-- Scenario B object: one dimension `{type: height, value: 0.5, unit: cm}`,
everything else healthy. -/
def obj005 : ObjRow :=
  ⟨some "OBJ-005", some "Fifth", some 1950, some "Gift", some "Paintings",
   [⟨some "Bob", some "artist", some 1900, some "T-NAT-1"⟩],
   [⟨some "T-TYPE-1", some "T-TERM-1"⟩],
   [⟨some "height", half, some "cm"⟩],
   [⟨some "primary", some "https://example.org/5.jpg", none⟩]⟩

/-- Scenario B harvest objects table. -/
def objsB : List ObjRow := [obj001, obj005]

/-- A terminology table whose key column `term_id` is not unique:
two rows share `term_id = "T1"` with different labels. -/
def termDup : List TermRow :=
  [⟨some "T1", some "object_term", some "Label A"⟩,
   ⟨some "T1", some "object_term", some "Label B"⟩]

/-- One object holding a single classification reference to the
duplicated key `"T1"`. -/
def objDup : ObjRow :=
  { obj001 with
      object_id := some "OBJ-D"
      classification_ids := [⟨some "TX", some "T1"⟩] }

/-- A terminology table where the non-nationality row `"N1"` shares its
`term_id` with the nationality row `"N1"` of a different `term_type`. -/
def termClash : List TermRow :=
  [⟨some "N1", some "object_type", some "SculptureKind"⟩,
   ⟨some "N1", some "nationality", some "British"⟩]

/-- An object with one constituent whose `nationality_id` is the clashing
key `"N1"` and one whose `nationality_id` matches no terminology row. -/
def objClash : ObjRow :=
  { obj001 with
      object_id := some "OBJ-C"
      constituents :=
        [⟨some "Alice", some "artist", some 1850, some "N1"⟩,
         ⟨some "Carol", some "painter", some 1860, some "N9"⟩] }

/-- A transform-output row whose nested list columns are all empty. -/
def rEmpty : OutRow :=
  ⟨some "OBJ-E", some "Empty", none, some "Gift", some "Paintings",
   [], [], [], []⟩


/-! ## Basic lemmas about the join primitives -/

theorem keyMatch_none (k : Option String) : keyMatch none k = false := by
  cases k <;> rfl

theorem keyMatch_some_iff (s : String) (k : Option String) :
    keyMatch (some s) k = true ↔ k = some s := by
  cases k with
  | none =>
    rw [show keyMatch (some s) none = false from rfl]
    simp
  | some b =>
    rw [show keyMatch (some s) (some b) = (s == b) from rfl, beq_iff_eq,
      Option.some.injEq]
    exact eq_comm

theorem find?_eq_head?_filter (p : α → Bool) (l : List α) :
    l.find? p = (l.filter p).head? := by
  induction l with
  | nil => rfl
  | cons a t ih =>
    cases h : p a
    · rw [List.find?_cons_of_neg _ (by simp [h]),
        List.filter_cons_of_neg (by simp [h])]
      exact ih
    · rw [List.find?_cons_of_pos _ h, List.filter_cons_of_pos h]
      rfl

theorem find?_filter (l : List α) (p q : α → Bool) :
    (l.filter p).find? q = l.find? (fun a => p a && q a) := by
  induction l with
  | nil => rfl
  | cons a t ih =>
    cases hp : p a
    · rw [List.filter_cons_of_neg (by simp [hp]),
        List.find?_cons_of_neg _ (by simp [hp]), ih]
    · rw [List.filter_cons_of_pos hp]
      cases hq : q a
      · rw [List.find?_cons_of_neg _ (by simp [hq]),
          List.find?_cons_of_neg _ (by simp [hp, hq]), ih]
      · rw [List.find?_cons_of_pos _ hq,
          List.find?_cons_of_pos _ (by simp [hp, hq])]

theorem strTrunc_length_le (s : String) : (strTrunc s).length ≤ 80 := by
  show (s.data.take 80).length ≤ 80
  rw [List.length_take]
  exact min_le_left _ _

theorem foldl_min_spec (xs : List Rat) (x : Rat) :
    xs.foldl min x ∈ x :: xs ∧ ∀ v ∈ x :: xs, xs.foldl min x ≤ v := by
  induction xs generalizing x with
  | nil => simp
  | cons y ys ih =>
    have h := ih (min x y)
    have hfold : (y :: ys).foldl min x = ys.foldl min (min x y) := rfl
    constructor
    · rw [hfold]
      rcases List.mem_cons.mp h.1 with heq | hmem
      · rcases min_choice x y with h2 | h2
        · rw [heq, h2]
          exact List.mem_cons_self _ _
        · rw [heq, h2]
          exact List.mem_cons_of_mem _ (List.mem_cons_self _ _)
      · exact List.mem_cons_of_mem _ (List.mem_cons_of_mem _ hmem)
    · intro v hv
      rw [hfold]
      rcases List.mem_cons.mp hv with hx | hv'
      · subst hx
        exact le_trans (h.2 _ (List.mem_cons_self _ _)) (min_le_left _ _)
      · rcases List.mem_cons.mp hv' with hy | hys
        · subst hy
          exact le_trans (h.2 _ (List.mem_cons_self _ _)) (min_le_right _ _)
        · exact h.2 v (List.mem_cons_of_mem _ hys)

theorem listMinQ_spec (l : List Rat) (m : Rat) (h : listMinQ l = some m) :
    m ∈ l ∧ ∀ v ∈ l, m ≤ v := by
  cases l with
  | nil => simp [listMinQ] at h
  | cons x xs =>
    have h2 := foldl_min_spec xs x
    simp only [listMinQ, Option.some.injEq] at h
    rw [h] at h2
    exact h2

theorem listMinQ_isSome (l : List Rat) (h : l ≠ []) :
    ∃ m, listMinQ l = some m := by
  cases l with
  | nil => exact absurd rfl h
  | cons x xs => exact ⟨_, rfl⟩

/-! ## At most one join match under unique keys -/

theorem filter_keyMatch_nil (L : List (Option String × β)) (s : String)
    (h : ∀ p ∈ L, p.1 ≠ some s) :
    L.filter (fun p => keyMatch (some s) p.1) = [] := by
  rw [List.filter_eq_nil_iff]
  intro a ha hka
  exact h a ha ((keyMatch_some_iff s a.1).mp hka)

theorem someVals_nodup_of_nodup (l : List (Option String)) (h : l.Nodup) :
    (someVals l).Nodup := by
  refine List.Nodup.filterMap ?_ h
  intro a a' b hb hb'
  have h1 : a = some b := Option.mem_def.mp hb
  have h2 : a' = some b := Option.mem_def.mp hb'
  rw [h1, h2]

theorem mem_someVals (l : List (Option String)) (s : String) :
    s ∈ someVals l ↔ some s ∈ l := by
  simp [someVals, List.mem_filterMap, Option.mem_def]

theorem filter_keyMatch_len_le_one (L : List (Option String × β))
    (k : Option String) (h : (someVals (L.map Prod.fst)).Nodup) :
    (L.filter (fun p => keyMatch k p.1)).length ≤ 1 := by
  cases k with
  | none =>
    have hnil : L.filter (fun p => keyMatch none p.1) = [] :=
      List.filter_eq_nil_iff.mpr (fun a _ => by simp [keyMatch_none])
    simp [hnil]
  | some s =>
    induction L with
    | nil => simp
    | cons p t ih =>
      have hmapcons : (p :: t).map Prod.fst = p.1 :: t.map Prod.fst := rfl
      rw [hmapcons] at h
      have htail_nodup : (someVals (t.map Prod.fst)).Nodup := by
        cases hp1 : p.1 with
        | none => simpa [someVals, hp1] using h
        | some v =>
          rw [hp1] at h
          simp only [someVals, List.filterMap_cons] at h
          exact (List.nodup_cons.mp h).2
      cases hp : keyMatch (some s) p.1
      · rw [List.filter_cons_of_neg (by simp [hp])]
        exact ih htail_nodup
      · rw [List.filter_cons_of_pos (by simp [hp])]
        have hps : p.1 = some s := (keyMatch_some_iff s p.1).mp hp
        have htail : t.filter (fun q => keyMatch (some s) q.1) = [] := by
          apply filter_keyMatch_nil
          intro q hq hqs
          have hmem : s ∈ someVals (t.map Prod.fst) :=
            (mem_someVals _ _).mpr (by
              rw [← hqs]
              exact List.mem_map_of_mem _ hq)
          rw [hps] at h
          simp only [someVals, List.filterMap_cons] at h
          exact (List.nodup_cons.mp h).1 hmem
        rw [htail]
        simp

theorem joinFan_single (L : List (Option String × Option String))
    (k : Option String)
    (h : (L.filter (fun p => keyMatch k p.1)).length ≤ 1) :
    joinFan L k
      = [(L.find? (fun p => keyMatch k p.1)).bind (fun p => p.2)] := by
  unfold joinFan lookupMatches
  rw [find?_eq_head?_filter]
  cases hF : L.filter (fun p => keyMatch k p.1) with
  | nil => rfl
  | cons a t =>
    cases t with
    | nil => rfl
    | cons b t2 =>
      rw [hF] at h
      simp only [List.length_cons] at h
      omega

theorem flatMap_singleton_eq_map (l : List α) (f : α → List β) (g : α → β)
    (h : ∀ a ∈ l, f a = [g a]) : l.flatMap f = l.map g := by
  induction l with
  | nil => rfl
  | cons a t ih =>
    rw [List.flatMap_cons, h a (List.mem_cons_self _ _), List.map_cons,
      ih (fun x hx => h x (List.mem_cons_of_mem _ hx))]
    rfl

theorem renest_keys_nodup (xs : List (Option String × β)) :
    ((renest xs).map Prod.fst).Nodup := by
  have h : (renest xs).map Prod.fst = (xs.map (fun p => p.1)).dedup := by
    simp [renest, List.map_map, Function.comp_def]
  rw [h]
  exact List.nodup_dedup _

theorem joinNested_eq_map (left : List α) (key : α → Option String)
    (right : List (Option String × List β))
    (h : (right.map Prod.fst).Nodup) :
    joinNested left key right = left.map (fun l =>
      (l, (right.find? (fun p => keyMatch (key l) p.1)).map
        (fun p => p.2))) := by
  unfold joinNested
  apply flatMap_singleton_eq_map
  intro a _
  have hlen : (right.filter (fun p => keyMatch (key a) p.1)).length ≤ 1 :=
    filter_keyMatch_len_le_one _ _ (someVals_nodup_of_nodup _ h)
  rw [find?_eq_head?_filter]
  cases hF : right.filter (fun p => keyMatch (key a) p.1) with
  | nil => rfl
  | cons b t =>
    cases t with
    | nil => rfl
    | cons c t2 =>
      rw [hF] at hlen
      simp only [List.length_cons] at hlen
      omega

/-! ## Content of the re-nested groups -/

theorem groupVals_eq_nil (xs : List (Option String × β)) (k : Option String)
    (h : ∀ p ∈ xs, p.1 ≠ k) : groupVals xs k = [] := by
  unfold groupVals
  rw [List.filter_eq_nil_iff.mpr]
  · rfl
  · intro a ha hak
    exact h a ha (by simpa using hak)

theorem find?_keyMatch_list (l : List (Option String)) (s : String) :
    l.find? (fun k' => keyMatch (some s) k')
      = if some s ∈ l then some (some s) else none := by
  induction l with
  | nil => rfl
  | cons a t ih =>
    cases ha : keyMatch (some s) a
    · have hne : a ≠ some s := fun he => by
        have h2 : keyMatch (some s) a = true := (keyMatch_some_iff s a).mpr he
        rw [h2] at ha
        exact Bool.noConfusion ha
      rw [List.find?_cons_of_neg _ (by simp [ha]), ih]
      by_cases hst : some s ∈ t
      · rw [if_pos hst, if_pos (List.mem_cons_of_mem _ hst)]
      · rw [if_neg hst, if_neg (by
          rw [List.mem_cons]
          rintro (hh | hh)
          · exact hne hh.symm
          · exact hst hh)]
    · have has : a = some s := (keyMatch_some_iff s a).mp ha
      rw [List.find?_cons_of_pos _ ha, has,
        if_pos (List.mem_cons_self _ _)]

theorem nestedLookup_renest_none (xs : List (Option String × β)) :
    nestedLookup (renest xs) none = [] := by
  unfold nestedLookup
  rw [List.find?_eq_none.mpr (fun p _ => by simp [keyMatch_none])]
  rfl

theorem nestedLookup_renest_some (xs : List (Option String × β))
    (s : String) :
    nestedLookup (renest xs) (some s) = groupVals xs (some s) := by
  unfold nestedLookup renest
  rw [List.find?_map]
  have hcomp : ((fun p : Option String × List β => keyMatch (some s) p.1)
      ∘ (fun k => (k, groupVals xs k))) = fun k' => keyMatch (some s) k' :=
    rfl
  rw [hcomp, find?_keyMatch_list]
  by_cases hmem : some s ∈ (xs.map (fun p => p.1)).dedup
  · rw [if_pos hmem]
    rfl
  · rw [if_neg hmem]
    have hg : groupVals xs (some s) = [] := by
      apply groupVals_eq_nil
      intro p hp hps
      exact hmem (by
        rw [List.mem_dedup]
        exact hps ▸ List.mem_map_of_mem _ hp)
    rw [hg]
    rfl

theorem filter_beq_map_pair (xs : List γ) (c k : Option String) :
    ((xs.map (fun v => (c, v))).filter (fun p => p.1 == k))
      = if c == k then xs.map (fun v => (c, v)) else [] := by
  rw [List.filter_map]
  have hcomp : ((fun p : Option String × γ => p.1 == k)
      ∘ (fun v => (c, v))) = fun _ => (c == k) := rfl
  rw [hcomp]
  cases hc : c == k
  · rw [if_neg (by simp [hc]), List.filter_eq_nil_iff.mpr
      (fun a _ => by simp [hc])]
    rfl
  · rw [if_pos (by simp [hc])]
    congr 1
    apply List.filter_eq_self.mpr
    intro a _
    rfl

theorem groupVals_pairs (l : List ObjRow) (g : ObjRow → List γ) (s : String)
    (h : (l.map (fun r => r.object_id)).Nodup) :
    groupVals (l.flatMap (fun r => (g r).map (fun v => (r.object_id, v))))
        (some s)
      = match l.find? (fun r => r.object_id == some s) with
        | some r => g r
        | none => [] := by
  induction l with
  | nil => rfl
  | cons a t ih =>
    simp only [List.map_cons, List.nodup_cons] at h
    rw [List.flatMap_cons]
    unfold groupVals
    rw [List.filter_append, List.map_append, filter_beq_map_pair]
    cases ha : a.object_id == some s
    · rw [if_neg (by simp [ha]), List.find?_cons_of_neg _ (by simp [ha])]
      simpa [groupVals] using ih h.2
    · rw [if_pos (by simp [ha]), List.find?_cons_of_pos _ (by simp [ha])]
      have has : a.object_id = some s := by simpa using ha
      have hrest : ((t.flatMap (fun r =>
          (g r).map (fun v => (r.object_id, v)))).filter
            (fun p => p.1 == some s)) = [] := by
        rw [List.filter_eq_nil_iff]
        intro p hp hps
        rw [List.mem_flatMap] at hp
        obtain ⟨r', hr', hpmem⟩ := hp
        rw [List.mem_map] at hpmem
        obtain ⟨v, _, hpv⟩ := hpmem
        have hid : r'.object_id = some s := by
          rw [← hpv] at hps
          simpa using hps
        have hmem : some s ∈ t.map (fun r => r.object_id) :=
          hid ▸ List.mem_map_of_mem _ hr'
        rw [has] at h
        exact h.1 hmem
      rw [hrest]
      simp [List.map_map, Function.comp_def]

/-! ## Per-source-row content of the enriched columns -/

theorem classificationsJoined_shape (terminology : List TermRow)
    (objects : List ObjRow) :
    classificationsJoined terminology objects
      = (objects.filter (fun r => !r.classification_ids.isEmpty)).flatMap
          (fun r =>
            (clsFan terminology r).map (fun v => (r.object_id, v))) := by
  unfold classificationsJoined clsFan
  simp only [List.map_flatMap, List.map_map]
  rfl

theorem constituentsJoined_shape (terminology : List TermRow)
    (objects : List ObjRow) :
    constituentsJoined terminology objects
      = (objects.filter (fun r => !r.constituents.isEmpty)).flatMap
          (fun r =>
            (consFan terminology r).map (fun v => (r.object_id, v))) := by
  unfold constituentsJoined consFan
  simp only [List.map_flatMap, List.map_map]
  rfl

theorem find?_conj_id (l : List ObjRow) (q : ObjRow → Bool) (s : String)
    (h : (l.map (fun r => r.object_id)).Nodup) (r : ObjRow) (hr : r ∈ l)
    (hid : r.object_id = some s) :
    l.find? (fun a => q a && (a.object_id == some s))
      = if q r then some r else none := by
  induction l with
  | nil => exact absurd hr (List.not_mem_nil r)
  | cons a t ih =>
    simp only [List.map_cons, List.nodup_cons] at h
    cases hida : a.object_id == some s
    · rw [List.find?_cons_of_neg _ (by simp [hida])]
      have hrt : r ∈ t := by
        rcases List.mem_cons.mp hr with he | ht
        · exfalso
          rw [← he] at hida
          rw [hid] at hida
          simp at hida
        · exact ht
      exact ih h.2 hrt
    · have haid : a.object_id = some s := by simpa using hida
      have hnot : ∀ x ∈ t, x.object_id ≠ some s := by
        intro x hx hxs
        apply h.1
        rw [haid]
        exact hxs ▸ List.mem_map_of_mem _ hx
      have har : a = r := by
        rcases List.mem_cons.mp hr with he | ht
        · exact he.symm
        · exact absurd hid (hnot r ht)
      cases hqa : q a
      · rw [List.find?_cons_of_neg _ (by simp [hqa])]
        rw [List.find?_eq_none.mpr (fun x hx => by
          simp only [Bool.and_eq_true]
          rintro ⟨_, hxs⟩
          exact hnot x hx (by simpa using hxs))]
        rw [har] at hqa
        rw [if_neg (by simp [hqa])]
      · rw [List.find?_cons_of_pos _ (by simp [hqa, hida]), har]
        rw [har] at hqa
        rw [if_pos hqa]

theorem transform_classifications (terminology : List TermRow)
    (objects : List ObjRow)
    (h : (objects.map (fun r => r.object_id)).Nodup)
    (r : ObjRow) (hr : r ∈ objects) (s : String)
    (hid : r.object_id = some s) :
    nestedLookup (renest (classificationsJoined terminology objects))
        (some s) = clsFan terminology r := by
  have hfn : ((objects.filter
      (fun r' => !r'.classification_ids.isEmpty)).map
      (fun r' => r'.object_id)).Nodup :=
    List.Nodup.sublist ((List.filter_sublist _).map _) h
  rw [nestedLookup_renest_some, classificationsJoined_shape,
    groupVals_pairs _ _ _ hfn, find?_filter,
    find?_conj_id _ _ _ h r hr hid]
  cases hq : (!r.classification_ids.isEmpty)
  · have hempty : r.classification_ids = [] := by simpa using hq
    simp [clsFan, hempty]
  · simp

theorem transform_constituents (terminology : List TermRow)
    (objects : List ObjRow)
    (h : (objects.map (fun r => r.object_id)).Nodup)
    (r : ObjRow) (hr : r ∈ objects) (s : String)
    (hid : r.object_id = some s) :
    nestedLookup (renest (constituentsJoined terminology objects))
        (some s) = consFan terminology r := by
  have hfn : ((objects.filter (fun r' => !r'.constituents.isEmpty)).map
      (fun r' => r'.object_id)).Nodup :=
    List.Nodup.sublist ((List.filter_sublist _).map _) h
  rw [nestedLookup_renest_some, constituentsJoined_shape,
    groupVals_pairs _ _ _ hfn, find?_filter,
    find?_conj_id _ _ _ h r hr hid]
  cases hq : (!r.constituents.isEmpty)
  · have hempty : r.constituents = [] := by simpa using hq
    simp [consFan, hempty]
  · simp

/-! ## Fan-out lengths and enriched values -/

theorem sum_map_cst (l : List α) (c : Nat) :
    (l.map (fun _ => c)).sum = l.length * c := by
  induction l with
  | nil => simp
  | cons a t ih =>
    simp only [List.map_cons, List.sum_cons, List.length_cons, ih]
    ring

theorem map_congr_mem (l : List α) (f g : α → β)
    (h : ∀ a ∈ l, f a = g a) : l.map f = l.map g := by
  induction l with
  | nil => rfl
  | cons a t ih =>
    rw [List.map_cons, List.map_cons, h a (List.mem_cons_self _ _),
      ih (fun x hx => h x (List.mem_cons_of_mem _ hx))]

theorem joinFan_length (L : List (Option String × Option String))
    (k : Option String) :
    (joinFan L k).length = max 1 (lookupMatches L k).length := by
  unfold joinFan
  cases h : lookupMatches L k with
  | nil => simp
  | cons a t =>
    show (a :: t).length = 1 ⊔ (a :: t).length
    rw [Nat.max_eq_right (by simp only [List.length_cons]; omega)]

theorem clsFan_length (terminology : List TermRow) (r : ObjRow) :
    (clsFan terminology r).length
      = (r.classification_ids.map (fun c =>
          max 1 (lookupMatches (typeLabels terminology) c.type_id).length
            * max 1 (lookupMatches (termLabels terminology)
                c.term_id).length)).sum := by
  unfold clsFan
  rw [List.length_flatMap]
  refine congrArg List.sum (map_congr_mem _ _ _ ?_)
  intro c _
  show ((joinFan (typeLabels terminology) c.type_id).flatMap
      (fun tl => (joinFan (termLabels terminology) c.term_id).map
        (fun ml => ClassOut.mk tl ml))).length = _
  rw [List.length_flatMap]
  have hcst : (List.length ∘ fun tl =>
      (joinFan (termLabels terminology) c.term_id).map
        (fun ml => ClassOut.mk tl ml))
      = fun _ => (joinFan (termLabels terminology) c.term_id).length := by
    funext tl
    simp
  rw [hcst, sum_map_cst, joinFan_length, joinFan_length]

theorem consFan_length (terminology : List TermRow) (r : ObjRow) :
    (consFan terminology r).length
      = (r.constituents.map (fun c =>
          max 1 (lookupMatches (nationalityLookup terminology)
            c.nationality_id).length)).sum := by
  unfold consFan
  rw [List.length_flatMap]
  refine congrArg List.sum (map_congr_mem _ _ _ ?_)
  intro c _
  show ((joinFan (nationalityLookup terminology) c.nationality_id).map
      (fun nat => ConsOut.mk c.name c.role c.birth_year nat)).length = _
  rw [List.length_map, joinFan_length]

theorem lookupMatches_len_le_one (L : List (Option String × Option String))
    (k : Option String) (h : (someVals (L.map Prod.fst)).Nodup) :
    (lookupMatches L k).length ≤ 1 := by
  unfold lookupMatches
  rw [List.length_map]
  exact filter_keyMatch_len_le_one _ _ h

theorem typeLabels_keys (terminology : List TermRow) :
    (typeLabels terminology).map Prod.fst
      = terminology.map (fun t => t.term_id) := by
  simp [typeLabels, List.map_map, Function.comp_def]

theorem termLabels_keys (terminology : List TermRow) :
    (termLabels terminology).map Prod.fst
      = terminology.map (fun t => t.term_id) := by
  simp [termLabels, List.map_map, Function.comp_def]

theorem nationalityLookup_keys (terminology : List TermRow) :
    (nationalityLookup terminology).map Prod.fst
      = (terminology.filter
          (fun t => t.term_type == some "nationality")).map
          (fun t => t.term_id) := by
  simp [nationalityLookup, List.map_map, Function.comp_def]

theorem clsFan_length_unique (terminology : List TermRow) (r : ObjRow)
    (h : (someVals (terminology.map (fun t => t.term_id))).Nodup) :
    (clsFan terminology r).length = r.classification_ids.length := by
  rw [clsFan_length]
  have h1 : ∀ k, (lookupMatches (typeLabels terminology) k).length ≤ 1 :=
    fun k => lookupMatches_len_le_one _ _ (by rw [typeLabels_keys]; exact h)
  have h2 : ∀ k, (lookupMatches (termLabels terminology) k).length ≤ 1 :=
    fun k => lookupMatches_len_le_one _ _ (by rw [termLabels_keys]; exact h)
  have hone : ∀ c : ClassRef,
      max 1 (lookupMatches (typeLabels terminology) c.type_id).length
        * max 1 (lookupMatches (termLabels terminology) c.term_id).length
      = 1 := by
    intro c
    rw [Nat.max_eq_left (h1 _), Nat.max_eq_left (h2 _)]
  simp only [hone, sum_map_cst, mul_one]

theorem natFiltered_keys_nodup (terminology : List TermRow)
    (h : (someVals (terminology.map (fun t => t.term_id))).Nodup) :
    (someVals ((nationalityLookup terminology).map Prod.fst)).Nodup := by
  rw [nationalityLookup_keys]
  exact List.Nodup.sublist
    (List.Sublist.filterMap _ ((List.filter_sublist _).map _)) h

theorem consFan_length_unique (terminology : List TermRow) (r : ObjRow)
    (h : (someVals (terminology.map (fun t => t.term_id))).Nodup) :
    (consFan terminology r).length = r.constituents.length := by
  rw [consFan_length]
  have hone : ∀ c : ConstituentIn,
      max 1 (lookupMatches (nationalityLookup terminology)
        c.nationality_id).length = 1 := fun c =>
    Nat.max_eq_left
      (lookupMatches_len_le_one _ _ (natFiltered_keys_nodup _ h))
  simp only [hone, sum_map_cst, mul_one]

theorem consFan_eq_map (terminology : List TermRow) (r : ObjRow)
    (h : (someVals ((terminology.filter
        (fun t => t.term_type == some "nationality")).map
        (fun t => t.term_id))).Nodup) :
    consFan terminology r = r.constituents.map (fun c =>
      ConsOut.mk c.name c.role c.birth_year
        (natResolve terminology c.nationality_id)) := by
  unfold consFan
  apply flatMap_singleton_eq_map
  intro c _
  have hnat : (someVals ((nationalityLookup terminology).map
      Prod.fst)).Nodup := by
    rw [nationalityLookup_keys]
    exact h
  rw [joinFan_single _ _ (filter_keyMatch_len_le_one _ _ hnat)]
  have hkey : (nationalityLookup terminology).find?
      (fun p => keyMatch c.nationality_id p.1)
      = (terminology.find? (fun t => (t.term_type == some "nationality")
          && keyMatch c.nationality_id t.term_id)).map
          (fun t => (t.term_id, t.label)) := by
    unfold nationalityLookup
    rw [List.find?_map, find?_filter]
    rfl
  rw [hkey]
  unfold natResolve
  cases terminology.find? (fun t => (t.term_type == some "nationality")
      && keyMatch c.nationality_id t.term_id) <;> rfl

/-- The function `objects_transform` is the per-row builder mapped over the source
rows: the final left joins fan nothing out because re-nested tables have
unique keys, so each source row yields exactly one output row, in order. -/
theorem objects_transform_eq_map (terminology : List TermRow)
    (objects : List ObjRow) :
    objects_transform terminology objects
      = objects.map (transformRow terminology objects) := by
  simp only [objects_transform]
  rw [joinNested_eq_map _ _ _ (renest_keys_nodup _),
    joinNested_eq_map _ _ _ (renest_keys_nodup _), List.map_map,
    List.map_map]
  rfl

/-! ## Row-level consequences for the transform output -/

theorem transformRow_classifications_eq (terminology : List TermRow)
    (objects : List ObjRow)
    (h : (objects.map (fun r => r.object_id)).Nodup)
    (r : ObjRow) (hr : r ∈ objects) (s : String)
    (hid : r.object_id = some s) :
    (transformRow terminology objects r).classifications
      = clsFan terminology r := by
  show nestedLookup (renest (classificationsJoined terminology objects))
      r.object_id = _
  rw [hid]
  exact transform_classifications terminology objects h r hr s hid

theorem transformRow_constituents_eq (terminology : List TermRow)
    (objects : List ObjRow)
    (h : (objects.map (fun r => r.object_id)).Nodup)
    (r : ObjRow) (hr : r ∈ objects) (s : String)
    (hid : r.object_id = some s) :
    (transformRow terminology objects r).constituents
      = consFan terminology r := by
  show nestedLookup (renest (constituentsJoined terminology objects))
      r.object_id = _
  rw [hid]
  exact transform_constituents terminology objects h r hr s hid

theorem transformRow_classifications_empty (terminology : List TermRow)
    (objects : List ObjRow)
    (h : (objects.map (fun r => r.object_id)).Nodup)
    (r : ObjRow) (hr : r ∈ objects)
    (he : r.classification_ids = []) :
    (transformRow terminology objects r).classifications = [] := by
  cases hido : r.object_id with
  | none =>
    show nestedLookup (renest (classificationsJoined terminology objects))
        r.object_id = []
    rw [hido]
    exact nestedLookup_renest_none _
  | some s =>
    rw [transformRow_classifications_eq terminology objects h r hr s hido]
    simp [clsFan, he]

theorem transformRow_constituents_empty (terminology : List TermRow)
    (objects : List ObjRow)
    (h : (objects.map (fun r => r.object_id)).Nodup)
    (r : ObjRow) (hr : r ∈ objects) (he : r.constituents = []) :
    (transformRow terminology objects r).constituents = [] := by
  cases hido : r.object_id with
  | none =>
    show nestedLookup (renest (constituentsJoined terminology objects))
        r.object_id = []
    rw [hido]
    exact nestedLookup_renest_none _
  | some s =>
    rw [transformRow_constituents_eq terminology objects h r hr s hido]
    simp [consFan, he]

/-! ## Validation-side lemmas -/

theorem check_passed_false (t : List OutRow) (h : allFailures t ≠ []) :
    (check_objects_transform t).1 = false := by
  unfold check_objects_transform
  cases hA : allFailures t with
  | nil => exact absurd hA h
  | cons a s => rfl

theorem check_failures_eq (t : List OutRow) :
    (check_objects_transform t).2 = allFailures t := by
  cases hA : allFailures t with
  | nil => simp [check_objects_transform, hA]
  | cons a s => simp [check_objects_transform, hA]

theorem mem_allFailures_trunc (t : List OutRow) (rec : FailureRec)
    (h : rec ∈ allFailures t) : ∃ s, rec.failure_case = strTrunc s := by
  unfold allFailures fieldFailures dfCheckFailures at h
  rw [List.mem_append] at h
  rcases h with h | h
  · rw [List.mem_append] at h
    rcases h with h | h
    · by_cases hu : objectIdsUnique t
      · rw [if_pos hu] at h
        exact absurd h (List.not_mem_nil _)
      · rw [if_neg hu] at h
        rcases List.mem_singleton.mp h with rfl
        exact ⟨_, rfl⟩
    · rw [List.mem_map] at h
      obtain ⟨r, _, hrec⟩ := h
      exact ⟨toString r.object_id, by rw [← hrec]⟩
  · rw [List.mem_flatMap] at h
    obtain ⟨c, _, hmem⟩ := h
    rw [List.mem_map] at hmem
    obtain ⟨r, _, hrec⟩ := hmem
    exact ⟨c.aggText r, by rw [← hrec]⟩

theorem dimension_check_false_iff (r : OutRow) :
    dimension_values_positive r = some false
      ↔ ∃ d ∈ r.dimensions, d.value ≤ 1 := by
  unfold dimension_values_positive
  cases hm : listMinQ (r.dimensions.map (fun d => d.value)) with
  | none =>
    constructor
    · intro h
      simp at h
    · rintro ⟨d, hd, _⟩
      have hne : (r.dimensions.map (fun d => d.value)) ≠ [] :=
        List.ne_nil_of_mem (List.mem_map_of_mem _ hd)
      obtain ⟨m, hm2⟩ := listMinQ_isSome _ hne
      rw [hm2] at hm
      exact Option.noConfusion hm
  | some m =>
    have hspec := listMinQ_spec _ _ hm
    constructor
    · intro h
      have hb : decide (1 < m) = false := by simpa using h
      have hle : m ≤ 1 := not_lt.mp (of_decide_eq_false hb)
      obtain ⟨d, hd, hdm⟩ := List.mem_map.mp hspec.1
      exact ⟨d, hd, by rw [hdm]; exact hle⟩
    · rintro ⟨d, hd, hdle⟩
      have hmd : m ≤ d.value := hspec.2 _ (List.mem_map_of_mem _ hd)
      have hm1 : ¬(1 : Rat) < m := not_lt.mpr (le_trans hmd hdle)
      simp [hm1]

/-! ## Claim theorems -/

/-- C1 (counterexample): a concrete run whose validation stage reports
failure, yet the output stage executed and an output document was
produced — `main()` is straight-line and never blocks. -/
theorem C1_counterexample :
    (mainRun termA objsA).passed = false
      ∧ (mainRun termA objsA).outputExecuted = true
      ∧ (mainRun termA objsA).outputDoc ≠ none := by
  refine ⟨by decide, rfl, by simp [mainRun]⟩

/-- C1 (amended): for every run of the pipeline, the output stage executes
and produces a document regardless of the validation verdict; the run's
reported outcome is exactly the checker's verdict, but it never blocks the
output stage. -/
theorem C1_amended (terminology : List TermRow) (objects : List ObjRow) :
    (mainRun terminology objects).outputExecuted = true
      ∧ (mainRun terminology objects).outputDoc
          = some (objects_transform terminology objects)
      ∧ (mainRun terminology objects).passed
          = (check_objects_transform
              (objects_transform terminology objects)).1 :=
  ⟨rfl, rfl, rfl⟩

/-- C2 (counterexample): a harvest input in which OBJ-003 has null
`date_made` and empty `constituents`; validation fails, but the failure
report contains no failure of `has_at_least_one_artist` on OBJ-003 — the
check is guarded by list non-emptiness and passes there. -/
theorem C2_counterexample :
    obj003.date_made = none ∧ obj003.constituents = []
      ∧ (check_objects_transform (objects_transform termA objsA)).1 = false
      ∧ ¬ (some "OBJ-003" ∈ rowsFailing (objects_transform termA objsA)
            "has_at_least_one_artist") := by
  refine ⟨rfl, rfl, by decide, by decide⟩

/-- C2 (amended): for a harvest input in which object OBJ-003 has
`constituents = []` (and ids are unique), validation of the transform
output returns `passed = False` and the failure report contains a failure
of `has_at_least_one_constituent` on OBJ-003, while
`has_at_least_one_artist` evaluates to true on OBJ-003's row (the guard
short-circuits on the empty list), so no failure of it is reported there. -/
theorem C2_amended (terminology : List TermRow) (objects : List ObjRow)
    (r : ObjRow) (hr : r ∈ objects)
    (hid : r.object_id = some "OBJ-003")
    (hcons : r.constituents = [])
    (hids : (objects.map (fun r' => r'.object_id)).Nodup) :
    (check_objects_transform
        (objects_transform terminology objects)).1 = false
      ∧ some "OBJ-003" ∈ rowsFailing
          (objects_transform terminology objects)
          "has_at_least_one_constituent"
      ∧ has_artist (transformRow terminology objects r) = some true := by
  have hout : transformRow terminology objects r
      ∈ objects_transform terminology objects := by
    rw [objects_transform_eq_map]
    exact List.mem_map_of_mem _ hr
  have hoc : (transformRow terminology objects r).constituents = [] :=
    transformRow_constituents_empty terminology objects hids r hr hcons
  have hfail : has_constituents (transformRow terminology objects r)
      = some false := by
    simp [has_constituents, hoc]
  have hfind : dataframeChecks.find?
      (fun c => c.cname == "has_at_least_one_constituent")
      = some ⟨"constituents", "has_at_least_one_constituent",
          has_constituents, fun r' => toString r'.constituents.length⟩ :=
    rfl
  have hmem : some "OBJ-003" ∈ rowsFailing
      (objects_transform terminology objects)
      "has_at_least_one_constituent" := by
    unfold rowsFailing
    rw [hfind]
    apply List.mem_map.mpr
    refine ⟨transformRow terminology objects r, ?_, ?_⟩
    · exact List.mem_filter.mpr ⟨hout, by simp [hfail]⟩
    · show (transformRow terminology objects r).object_id = some "OBJ-003"
      exact hid
  have hrec : (⟨"constituents", "has_at_least_one_constituent",
      strTrunc (toString
        (transformRow terminology objects r).constituents.length)⟩
        : FailureRec)
      ∈ dfCheckFailures (objects_transform terminology objects) := by
    unfold dfCheckFailures
    apply List.mem_flatMap.mpr
    refine ⟨⟨"constituents", "has_at_least_one_constituent",
      has_constituents, fun r' => toString r'.constituents.length⟩, ?_, ?_⟩
    · exact List.mem_cons_self _ _
    · exact List.mem_map.mpr ⟨transformRow terminology objects r,
        List.mem_filter.mpr ⟨hout, by simp [hfail]⟩, rfl⟩
  have hne : allFailures (objects_transform terminology objects) ≠ [] := by
    intro hnil
    unfold allFailures at hnil
    exact List.ne_nil_of_mem hrec (List.append_eq_nil.mp hnil).2
  exact ⟨check_passed_false _ hne, hmem, by simp [has_artist, hoc]⟩

/-- C2 (witness): the amended statement instantiated on the Scenario A
input. -/
theorem C2_witness :
    (obj003 ∈ objsA ∧ obj003.object_id = some "OBJ-003"
        ∧ obj003.constituents = []
        ∧ (objsA.map (fun r' => r'.object_id)).Nodup)
      ∧ (check_objects_transform (objects_transform termA objsA)).1 = false
      ∧ some "OBJ-003" ∈ rowsFailing (objects_transform termA objsA)
          "has_at_least_one_constituent"
      ∧ has_artist (transformRow termA objsA obj003) = some true :=
  ⟨⟨by decide, rfl, rfl, by decide⟩,
    C2_amended termA objsA obj003 (by decide) rfl rfl (by decide)⟩

/-- C3 (counterexample): a lookup table whose `term_id` is not unique, on
which the enricher does not fail fast: it produces a join result in which
the single classification reference appears twice (once per matching
lookup row). -/
theorem C3_counterexample :
    ¬ (someVals (termDup.map (fun t => t.term_id))).Nodup
      ∧ (objects_transform termDup [objDup]).map
          (fun r => r.classifications.length) = [2]
      ∧ objDup.classification_ids.length = 1 := by
  refine ⟨by decide, by decide, by decide⟩

/-- C3 (amended): the enricher performs no uniqueness validation and never
raises; for any lookup table, each output list carries one element per
combination of matching lookup rows (at least one per source element), so
a non-unique key fans elements out instead of failing fast. -/
theorem C3_amended (terminology : List TermRow) (objects : List ObjRow)
    (hids : (objects.map (fun r => r.object_id)).Nodup)
    (hsome : ∀ r ∈ objects, r.object_id.isSome) :
    List.Forall₂ (fun (src : ObjRow) (out : OutRow) =>
      out.classifications.length = (src.classification_ids.map (fun c =>
        max 1 (lookupMatches (typeLabels terminology) c.type_id).length
          * max 1 (lookupMatches (termLabels terminology)
              c.term_id).length)).sum
      ∧ out.constituents.length = (src.constituents.map (fun c =>
          max 1 (lookupMatches (nationalityLookup terminology)
            c.nationality_id).length)).sum)
      objects (objects_transform terminology objects) := by
  rw [objects_transform_eq_map, List.forall₂_map_right_iff,
    List.forall₂_same]
  intro r hr
  obtain ⟨s, hs⟩ := Option.isSome_iff_exists.mp (hsome r hr)
  constructor
  · rw [transformRow_classifications_eq terminology objects hids r hr s hs]
    exact clsFan_length terminology r
  · rw [transformRow_constituents_eq terminology objects hids r hr s hs]
    exact consFan_length terminology r

/-- C3 (witness): the amended statement instantiated on the duplicate-key
input. -/
theorem C3_witness :
    (([objDup].map (fun r => r.object_id)).Nodup
        ∧ (∀ r ∈ [objDup], r.object_id.isSome))
      ∧ List.Forall₂ (fun (src : ObjRow) (out : OutRow) =>
          out.classifications.length = (src.classification_ids.map (fun c =>
            max 1 (lookupMatches (typeLabels termDup) c.type_id).length
              * max 1 (lookupMatches (termLabels termDup)
                  c.term_id).length)).sum
          ∧ out.constituents.length = (src.constituents.map (fun c =>
              max 1 (lookupMatches (nationalityLookup termDup)
                c.nationality_id).length)).sum)
          [objDup] (objects_transform termDup [objDup]) :=
  ⟨⟨by decide, by decide⟩,
    C3_amended termDup [objDup] (by decide) (by decide)⟩

/-- C4: for every source row (with present, unique ids and a unique lookup
key), the transform output row in the same position has as many
classifications as the row's `classification_ids` and as many constituents
as the row's `constituents`: the enricher never drops or duplicates
elements. -/
theorem C4_join_completeness (terminology : List TermRow)
    (objects : List ObjRow)
    (hids : (objects.map (fun r => r.object_id)).Nodup)
    (hsome : ∀ r ∈ objects, r.object_id.isSome)
    (hkeys : (someVals (terminology.map (fun t => t.term_id))).Nodup) :
    List.Forall₂ (fun (src : ObjRow) (out : OutRow) =>
      out.classifications.length = src.classification_ids.length
        ∧ out.constituents.length = src.constituents.length)
      objects (objects_transform terminology objects) := by
  rw [objects_transform_eq_map, List.forall₂_map_right_iff,
    List.forall₂_same]
  intro r hr
  obtain ⟨s, hs⟩ := Option.isSome_iff_exists.mp (hsome r hr)
  constructor
  · rw [transformRow_classifications_eq terminology objects hids r hr s hs]
    exact clsFan_length_unique terminology r hkeys
  · rw [transformRow_constituents_eq terminology objects hids r hr s hs]
    exact consFan_length_unique terminology r hkeys

/-- C4 (witness): join completeness on the Scenario A input. -/
theorem C4_witness :
    ((objsA.map (fun r => r.object_id)).Nodup
        ∧ (∀ r ∈ objsA, r.object_id.isSome)
        ∧ (someVals (termA.map (fun t => t.term_id))).Nodup)
      ∧ List.Forall₂ (fun (src : ObjRow) (out : OutRow) =>
          out.classifications.length = src.classification_ids.length
            ∧ out.constituents.length = src.constituents.length)
          objsA (objects_transform termA objsA) :=
  ⟨⟨by decide, by decide, by decide⟩,
    C4_join_completeness termA objsA (by decide) (by decide) (by decide)⟩

/-- C5: a source row with an empty `constituents` (resp.
`classification_ids`) list yields `constituents = []` (resp.
`classifications = []`) in the output row — an empty list, never null
(`fill_null([])` runs after the final left joins). -/
theorem C5_empty_list_invariant (terminology : List TermRow)
    (objects : List ObjRow)
    (hids : (objects.map (fun r => r.object_id)).Nodup) :
    List.Forall₂ (fun (src : ObjRow) (out : OutRow) =>
      (src.constituents = [] → out.constituents = [])
        ∧ (src.classification_ids = [] → out.classifications = []))
      objects (objects_transform terminology objects) := by
  rw [objects_transform_eq_map, List.forall₂_map_right_iff,
    List.forall₂_same]
  intro r hr
  exact ⟨fun he =>
      transformRow_constituents_empty terminology objects hids r hr he,
    fun he =>
      transformRow_classifications_empty terminology objects hids r hr he⟩

/-- C5 (witness): the empty-list invariant on the Scenario A input, whose
OBJ-003 has zero constituents. -/
theorem C5_witness :
    (objsA.map (fun r => r.object_id)).Nodup
      ∧ List.Forall₂ (fun (src : ObjRow) (out : OutRow) =>
          (src.constituents = [] → out.constituents = [])
            ∧ (src.classification_ids = [] → out.classifications = []))
          objsA (objects_transform termA objsA) :=
  ⟨by decide, C5_empty_list_invariant termA objsA (by decide)⟩

/-- C6: `all_dimension_values_gt_1` fails exactly on rows whose
`dimensions` contain an element with `value ≤ 1`; on the Scenario B input,
validation fails, the check fails exactly on OBJ-005, the failing
aggregate (the list minimum) is 0.5, and the failure report carries the
serialized offending value. -/
theorem C6_dimension_check :
    (∀ r : OutRow, (dimension_values_positive r = some false
        ↔ ∃ d ∈ r.dimensions, d.value ≤ 1))
      ∧ (check_objects_transform (objects_transform termA objsB)).1 = false
      ∧ rowsFailing (objects_transform termA objsB)
          "all_dimension_values_gt_1" = [some "OBJ-005"]
      ∧ listMinQ (obj005.dimensions.map (fun d => d.value)) = some half
      ∧ half = (1 : Rat)/2
      ∧ (⟨"dimensions", "all_dimension_values_gt_1",
          strTrunc (toString half)⟩ : FailureRec)
          ∈ (check_objects_transform (objects_transform termA objsB)).2 := by
  refine ⟨dimension_check_false_iff, by decide, by decide, by decide,
    ?_, by decide⟩
  rw [half, Rat.mk'_eq_divInt]
  norm_num [Rat.divInt_eq_div]

/-- C7: the checks guarded by list non-emptiness
(`no_empty_constituent_names`, `has_at_least_one_artist`,
`no_null_labels_in_classifications`) evaluate to true on rows whose
guarded list is empty, and the dimension-minimum check evaluates to null
(not a failure, no exception) on an empty `dimensions` list. -/
theorem C7_guarded_checks_empty (r : OutRow) :
    (r.constituents = [] →
        constituent_names_not_empty r = some true
          ∧ has_artist r = some true)
      ∧ (r.classifications = [] →
          classification_labels_resolved r = some true)
      ∧ (r.dimensions = [] → dimension_values_positive r = none) := by
  refine ⟨fun he => ⟨?_, ?_⟩, fun he => ?_, fun he => ?_⟩ <;>
    simp [constituent_names_not_empty, has_artist,
      classification_labels_resolved, dimension_values_positive,
      listMinQ, he]

/-- C7 (witness): the guarded checks on a concrete row with empty nested
lists. -/
theorem C7_witness :
    (rEmpty.constituents = [] ∧ rEmpty.classifications = []
        ∧ rEmpty.dimensions = [])
      ∧ constituent_names_not_empty rEmpty = some true
      ∧ has_artist rEmpty = some true
      ∧ classification_labels_resolved rEmpty = some true
      ∧ dimension_values_positive rEmpty = none :=
  ⟨⟨rfl, rfl, rfl⟩, ((C7_guarded_checks_empty rEmpty).1 rfl).1,
    ((C7_guarded_checks_empty rEmpty).1 rfl).2,
    (C7_guarded_checks_empty rEmpty).2.1 rfl,
    (C7_guarded_checks_empty rEmpty).2.2 rfl⟩

/-- C8: whenever any check fails, `check_objects_transform` returns
`passed = False` together with the failure list (no exception escapes, the
match is total), and every failure record's `failure_case` is a scalar
string of at most 80 characters — the source truncates each serialized
value with `str(...)[:80]`. -/
theorem C8_bounded_failure_cases (t : List OutRow)
    (h : allFailures t ≠ []) :
    (check_objects_transform t).1 = false
      ∧ ∀ rec ∈ (check_objects_transform t).2,
          rec.failure_case.length ≤ 80 := by
  refine ⟨check_passed_false t h, ?_⟩
  intro rec hrec
  rw [check_failures_eq] at hrec
  obtain ⟨s, hs⟩ := mem_allFailures_trunc t rec hrec
  rw [hs]
  exact strTrunc_length_le s

/-- C8 (witness): the bound on the Scenario A failures. -/
theorem C8_witness :
    allFailures (objects_transform termA objsA) ≠ []
      ∧ (check_objects_transform (objects_transform termA objsA)).1
          = false :=
  ⟨by decide, (C8_bounded_failure_cases _ (by decide)).1⟩

/-- C9: for every pair of harvest inputs, the sequence of `object_id`
values of the transform output equals the sequence of `object_id` values
of the harvest objects input — the explode, group-by re-nest and keyed
joins neither reorder, drop nor duplicate rows (the embedding of the
dataframe operations is deterministic by construction). -/
theorem C9_order_preserved (terminology : List TermRow)
    (objects : List ObjRow) :
    (objects_transform terminology objects).map (fun r => r.object_id)
      = objects.map (fun r => r.object_id) := by
  rw [objects_transform_eq_map, List.map_map]
  rfl

/-- C10: each constituent's nationality is resolved only against
terminology rows whose `term_type` is `"nationality"`: it equals the label
of the nationality row whose `term_id` matches the element's
`nationality_id`, and is null when there is no such row — even if a row of
a different `term_type` carries the same `term_id`. -/
theorem C10_nationality_resolution (terminology : List TermRow)
    (objects : List ObjRow)
    (hids : (objects.map (fun r => r.object_id)).Nodup)
    (hsome : ∀ r ∈ objects, r.object_id.isSome)
    (hnat : (someVals ((terminology.filter
        (fun t => t.term_type == some "nationality")).map
        (fun t => t.term_id))).Nodup) :
    List.Forall₂ (fun (src : ObjRow) (out : OutRow) =>
      out.constituents = src.constituents.map (fun c =>
        ConsOut.mk c.name c.role c.birth_year
          (natResolve terminology c.nationality_id)))
      objects (objects_transform terminology objects) := by
  rw [objects_transform_eq_map, List.forall₂_map_right_iff,
    List.forall₂_same]
  intro r hr
  obtain ⟨s, hs⟩ := Option.isSome_iff_exists.mp (hsome r hr)
  rw [transformRow_constituents_eq terminology objects hids r hr s hs]
  exact consFan_eq_map terminology r hnat

/-- C10 (witness): nationality resolution on an input whose terminology
carries a clashing `term_id` under a different `term_type`. -/
theorem C10_witness :
    (([objClash].map (fun r => r.object_id)).Nodup
        ∧ (∀ r ∈ [objClash], r.object_id.isSome)
        ∧ (someVals ((termClash.filter
            (fun t => t.term_type == some "nationality")).map
            (fun t => t.term_id))).Nodup)
      ∧ List.Forall₂ (fun (src : ObjRow) (out : OutRow) =>
          out.constituents = src.constituents.map (fun c =>
            ConsOut.mk c.name c.role c.birth_year
              (natResolve termClash c.nationality_id)))
          [objClash] (objects_transform termClash [objClash]) :=
  ⟨⟨by decide, by decide, by decide⟩,
    C10_nationality_resolution termClash [objClash] (by decide) (by decide)
      (by decide)⟩

end Pipeline
